import Mathlib

/-!
Verification development for the New-Overlord world generator and movement
calculator (`app.py`).

Shallow embedding conventions used throughout this file:

* Python integers are `Int` (coordinates may go negative through neighbor
  offsets) or `Nat` (loop ranges, fuel); Python `%` on a positive modulus
  agrees with `Int.emod`, and Python `//` / `int()` truncation agrees with
  Lean division on the nonnegative operands that occur here.
* Python dicts keyed by the string `f"{x},{y}"` are modelled as maps keyed by
  the pair `(x, y) : Int × Int`; the encoding `x ++ "," ++ y` is injective on
  integer pairs, so the two views are isomorphic.
* The ambient `random` module is modelled by an explicit state
  `RandState = (Nat → Nat) × Nat`: a stream of draws together with the next
  position.  Each call of `random.choice` / `random.randint` consumes one
  draw.  Functions that never touch `random` do not take this state (their
  state-passing wrappers return it unchanged).
* Python's built-in `hash` on strings (salted per process, but fixed within a
  process) is modelled by an explicit parameter `hashFn : String → Int`.
* The JSON config files (`config/movement-system.json` etc.) are not part of
  the repository, so every loader takes its `except FileNotFoundError`
  branch; the embedded tables below are the `use_basic_*` fallback data that
  the code itself contains.
-/

/-- Explicit model of the ambient `random` module state: a stream of natural
number draws and the index of the next draw. -/
def RandState : Type := (Nat → Nat) × Nat

/-- Model of `random.choice(lst)`: consume one draw and index into the list.
`random.choice` raises on an empty sequence; callers in this file only pass
nonempty lists, for which the `getD ""` default is never used. -/
def randChoice (lst : List String) (g : RandState) : String × RandState :=
  (lst.getD (g.1 g.2 % lst.length) "", (g.1, g.2 + 1))

/-- Model of `random.randint(a, b)` (inclusive bounds): consume one draw. -/
def randIntR (a b : Nat) (g : RandState) : Nat × RandState :=
  (a + g.1 g.2 % (b - a + 1), (g.1, g.2 + 1))

/-- Model of `set.add` on a Python set represented as a duplicate-free list:
adding an element that is already present leaves the set unchanged. -/
def pySetAdd (s : List String) (x : String) : List String :=
  if x ∈ s then s else s ++ [x]

namespace MovementCalculator

/-- One entry of `terrain_movement_costs` (movement-system data, app.py
lines 24-31). -/
structure TerrainCost where
  base_exit_time : Int
  base_enter_time : Int
  passable : Bool
  deriving Repr, DecidableEq

/-- `use_basic_movement_data` terrain table (app.py lines 22-33).  The
`config/movement-system.json` file is absent from the repository, so
`load_movement_data` always falls back to this table. -/
def terrain_movement_costs : List (String × TerrainCost) :=
  [("plains",    ⟨2, 2, true⟩),
   ("hills",     ⟨4, 4, true⟩),
   ("mountains", ⟨8, 8, false⟩),
   ("forests",   ⟨5, 5, true⟩),
   ("swamps",    ⟨7, 7, true⟩),
   ("deserts",   ⟨6, 6, true⟩)]

/-- The entry `terrain_costs["plains"]`, used as the default for unknown
terrain labels (app.py lines 40-41). -/
def plainsData : TerrainCost := ⟨2, 2, true⟩

/-- `distance_variation["adjacent_hex"]["min_bonus"]` (app.py line 32). -/
def min_bonus : Int := 0

/-- `distance_variation["adjacent_hex"]["max_bonus"]` (app.py line 32). -/
def max_bonus : Int := 3

/-- Result dictionary of `calculate_movement_time` (app.py lines 43-74).
`days` is `none` exactly when the dict carries `"days": None`. -/
structure MoveResult where
  days : Option Int
  impassable : Bool
  movement_type : Option String
  reason : Option String
  requirements : List String
  deriving Repr, DecidableEq

/-- The seed string `f"{x1},{y1}-{x2},{y2}"` of app.py line 61. -/
def seedString (fc tc : Int × Int) : String :=
  toString fc.1 ++ "," ++ toString fc.2 ++ "-" ++ toString tc.1 ++ "," ++ toString tc.2

/-- `MovementCalculator.calculate_movement_time` (app.py lines 35-74),
with the process hash function for strings passed explicitly as `hashFn`.
The basic movement data is always loaded (see module comment), so the
`if not self.movement_data` reload of lines 36-37 is a no-op. -/
def calculate_movement_time (hashFn : String → Int)
    (from_terrain to_terrain movement_type : String)
    (from_coords to_coords : Option (Int × Int)) : MoveResult :=
  let from_data := (terrain_movement_costs.lookup from_terrain).getD plainsData
  let to_data := (terrain_movement_costs.lookup to_terrain).getD plainsData
  if to_data.passable = false then
    { days := none, impassable := true, movement_type := none,
      reason := some ("Impassable terrain: " ++ to_terrain), requirements := [] }
  else
    let exit_time := from_data.base_exit_time
    let enter_time := to_data.base_enter_time
    let base_min := exit_time + enter_time + min_bonus
    let base_max := exit_time + enter_time + max_bonus
    let specific_time :=
      match from_coords, to_coords with
      | some fc, some tc =>
          let seed := hashFn (seedString fc tc) % 1000
          let variation := seed % (base_max - base_min + 1)
          base_min + variation
      | _, _ => (base_min + base_max) / 2
    if movement_type = "flying" then
      { days := some 4, impassable := false, movement_type := some "flying",
        reason := none, requirements := [] }
    else if movement_type = "riding" then
      { days := some (max 1 ((specific_time * 67) / 100)), impassable := false,
        movement_type := some "riding", reason := none, requirements := [] }
    else
      { days := some specific_time, impassable := false,
        movement_type := some "walking", reason := none, requirements := [] }

/-- `calculate_movement_time` within the program's ambient-random-state
discipline: the method body never references the `random` module, so the
state is returned unchanged. -/
def calculate_movement_timeR (hashFn : String → Int)
    (from_terrain to_terrain movement_type : String)
    (from_coords to_coords : Option (Int × Int)) (g : RandState) :
    MoveResult × RandState :=
  (calculate_movement_time hashFn from_terrain to_terrain movement_type
    from_coords to_coords, g)

/-- `MovementCalculator.get_hex_neighbors` (app.py lines 76-86): row-parity
offset tables filtered to the grid bounds, with no wrap in either axis. -/
def get_hex_neighbors (x y : Int) (width height : Nat) : List (Int × Int) :=
  let potential :=
    if y % 2 = 0 then
      [(x-1, y), (x+1, y), (x, y-1), (x+1, y-1), (x, y+1), (x+1, y+1)]
    else
      [(x-1, y), (x+1, y), (x-1, y-1), (x, y-1), (x-1, y+1), (x, y+1)]
  potential.filter (fun n =>
    decide (0 ≤ n.1 ∧ n.1 < (width : Int) ∧ 0 ≤ n.2 ∧ n.2 < (height : Int)))

/-- `MovementCalculator.get_direction_name` (app.py lines 88-106).  The two
row-parity branches of the source carry identical tables; both are kept. -/
def get_direction_name (from_x from_y to_x to_y : Int) : String :=
  let dx := to_x - from_x
  let dy := to_y - from_y
  if from_y % 2 = 1 then
    if dx = 0 ∧ dy = -1 then "North"
    else if dx = 1 ∧ dy = -1 then "Northeast"
    else if dx = 1 ∧ dy = 0 then "Southeast"
    else if dx = 0 ∧ dy = 1 then "South"
    else if dx = -1 ∧ dy = 1 then "Southwest"
    else if dx = -1 ∧ dy = 0 then "Northwest"
    else "Unknown"
  else
    if dx = 0 ∧ dy = -1 then "North"
    else if dx = 1 ∧ dy = -1 then "Northeast"
    else if dx = 1 ∧ dy = 0 then "Southeast"
    else if dx = 0 ∧ dy = 1 then "South"
    else if dx = -1 ∧ dy = 1 then "Southwest"
    else if dx = -1 ∧ dy = 0 then "Northwest"
    else "Unknown"

/-- One value of the `world_data["hexes"]` dict as read by
`calculate_all_directions` (app.py lines 121-126): only the keys the method
accesses are modelled; `geographic_name`/`location_id` are `none` when the
stored value is `None` or the key is absent. -/
structure MHex where
  terrain : String
  geographic_name : Option String
  location_id : Option String
  deriving Repr, DecidableEq

/-- The `world_data` argument of `calculate_all_directions`: grid size from
`metadata["size"]` and the `hexes` dict as a partial map on coordinates. -/
structure MWorld where
  width : Nat
  height : Nat
  hexes : Int × Int → Option MHex

/-- Per-mode movement block of one direction entry (app.py line 136). -/
structure ModeTimes where
  walking : MoveResult
  riding : MoveResult
  flying : MoveResult
  deriving Repr, DecidableEq

/-- One entry of the list built by `calculate_all_directions`
(app.py lines 133-137). -/
structure DirEntry where
  direction : String
  target_name : String
  target_id : String
  target_terrain : String
  coordinates : Int × Int
  movement : ModeTimes
  deriving Repr, DecidableEq

/-- Model of Python `str.title()` as used on terrain labels
(`f"{target_terrain.title()} Region"`, app.py line 125): uppercase each
letter that follows a non-letter, lowercase the rest. -/
def pyTitle (s : String) : String :=
  (s.data.foldl (fun (acc : List Char × Bool) c =>
      if c.isAlpha then
        (acc.1 ++ [if acc.2 then c.toLower else c.toUpper], true)
      else
        (acc.1 ++ [c], false)) ([], false)).1.asString

/-- `direction_order` (app.py line 139). -/
def direction_order : List String :=
  ["North", "Northeast", "Southeast", "South", "Southwest", "Northwest"]

/-- Sort key of app.py line 140: index in `direction_order`, else 99. -/
def directionKey (d : String) : Nat :=
  if d ∈ direction_order then direction_order.indexOf d else 99

/-- `MovementCalculator.calculate_all_directions` (app.py lines 108-141).
Python's `list.sort` is a stable sort by the key of line 140; it is modelled
by the stable `List.insertionSort` on the same key, which produces the same
list as any other stable sort of the same key. -/
def calculate_all_directions (hashFn : String → Int) (x y : Int)
    (world : MWorld) : List DirEntry :=
  match world.hexes (x, y) with
  | none => []
  | some current_hex =>
    let current_terrain := current_hex.terrain
    let neighbors := get_hex_neighbors x y world.width world.height
    let directions := neighbors.filterMap (fun n =>
      match world.hexes n with
      | none => none
      | some neighbor_hex =>
        let direction := get_direction_name x y n.1 n.2
        let target_terrain := neighbor_hex.terrain
        let target_name :=
          neighbor_hex.geographic_name.getD (pyTitle target_terrain ++ " Region")
        let target_id := neighbor_hex.location_id.getD "L????"
        let walking := calculate_movement_time hashFn current_terrain
          target_terrain "walking" (some (x, y)) (some n)
        let riding := calculate_movement_time hashFn current_terrain
          target_terrain "riding" (some (x, y)) (some n)
        let flying := calculate_movement_time hashFn current_terrain
          target_terrain "flying" (some (x, y)) (some n)
        some { direction := direction, target_name := target_name,
               target_id := target_id, target_terrain := target_terrain,
               coordinates := n,
               movement := ⟨walking, riding, flying⟩ })
    directions.insertionSort (fun a b =>
      directionKey a.direction ≤ directionKey b.direction)

end MovementCalculator

namespace TerrainClusterer

/-- The world data the clusterer reads: `metadata["size"]`, the key set of
the `hexes` dict, and the per-hex `terrain` labels (app.py lines 233-238).
`terrain c` is only meaningful when `c ∈ hexdom` (dict access is guarded by
a membership test in the source). -/
structure WorldData where
  width : Nat
  height : Nat
  hexdom : Finset (Int × Int)
  terrain : Int × Int → String

/-- `TerrainClusterer.get_hex_neighbors` (app.py lines 293-298): the raw
row-parity offset tables, without bounds filtering. -/
def get_hex_neighbors (x y : Int) : List (Int × Int) :=
  if y % 2 = 0 then
    [(x-1, y), (x+1, y), (x, y-1), (x+1, y-1), (x, y+1), (x+1, y+1)]
  else
    [(x-1, y), (x+1, y), (x-1, y-1), (x, y-1), (x-1, y+1), (x, y+1)]

/-- The neighbor push guard of `flood_fill` (app.py lines 283-288): in
bounds, unvisited, stored in the hex dict, and of the target terrain. -/
def pushCond (W : WorldData) (target_terrain : String)
    (visited : Finset (Int × Int)) (n : Int × Int) : Bool :=
  decide ((0 ≤ n.1 ∧ n.1 < (W.width : Int) ∧ 0 ≤ n.2 ∧ n.2 < (W.height : Int)) ∧
    n ∉ visited ∧ n ∈ W.hexdom ∧ W.terrain n = target_terrain)

/-- The `while stack:` loop of `flood_fill` (app.py lines 269-289), with the
Python list-as-stack (pop/append at the end) represented head-first: popping
takes the head, and pushing the neighbor list appends its reverse.  The loop
terminates because each iteration either marks a new cell visited or shrinks
the stack; `fuel` bounds the number of iterations and is unreachable when at
least `7 * |unvisited cells of the grid| + |stack|` fuel is supplied (proved
below), so the fueled function agrees with the unbounded loop. -/
def floodAux (W : WorldData) (target_terrain : String) :
    Nat → List (Int × Int) → Finset (Int × Int) → List (Int × Int) →
    List (Int × Int) × Finset (Int × Int)
  | _, [], visited, cluster => (cluster, visited)
  | 0, _ :: _, visited, cluster => (cluster, visited)
  | fuel + 1, c :: stack, visited, cluster =>
    if c ∈ visited ∨ c ∉ W.hexdom ∨ ¬ W.terrain c = target_terrain then
      floodAux W target_terrain fuel stack visited cluster
    else
      let visited2 := insert c visited
      let pushes := (get_hex_neighbors c.1 c.2).filter (pushCond W target_terrain visited2)
      floodAux W target_terrain fuel (pushes.reverse ++ stack) visited2 (cluster ++ [c])

/-- `TerrainClusterer.flood_fill` (app.py lines 265-291). -/
def flood_fill (W : WorldData) (start_x start_y : Int) (target_terrain : String)
    (visited : Finset (Int × Int)) : List (Int × Int) × Finset (Int × Int) :=
  floodAux W target_terrain (7 * W.hexdom.card + 2) [(start_x, start_y)] visited []

/-- One emitted cluster (app.py lines 252-256); `name` is set later by
`generate_world`, so it is carried separately there. -/
structure Cluster where
  id : Nat
  terrain : String
  members : List (Int × Int)
  deriving Repr, DecidableEq

/-- Scan order of `find_clusters` (app.py lines 244-245): `y` outer, `x`
inner. -/
def scanCoords (width height : Nat) : List (Int × Int) :=
  (List.range height).flatMap (fun y =>
    (List.range width).map (fun x => (Int.ofNat x, Int.ofNat y)))

/-- The scan loop of `find_clusters` (app.py lines 244-261), accumulating the
emitted clusters and the `hex_to_cluster` assignment. -/
def findClustersLoop (W : WorldData) :
    List (Int × Int) → Finset (Int × Int) → Nat → List Cluster →
    List ((Int × Int) × Nat) →
    List Cluster × List ((Int × Int) × Nat) × Finset (Int × Int)
  | [], visited, _, clusters, hex_to_cluster => (clusters, hex_to_cluster, visited)
  | c :: rest, visited, cluster_id, clusters, hex_to_cluster =>
    if c ∉ visited ∧ c ∈ W.hexdom then
      let terrain := W.terrain c
      let res := flood_fill W c.1 c.2 terrain visited
      if res.1.isEmpty then
        findClustersLoop W rest res.2 cluster_id clusters hex_to_cluster
      else
        findClustersLoop W rest res.2 (cluster_id + 1)
          (clusters ++ [⟨cluster_id, terrain, res.1⟩])
          (hex_to_cluster ++ res.1.map (fun h => (h, cluster_id)))
    else
      findClustersLoop W rest visited cluster_id clusters hex_to_cluster

/-- `TerrainClusterer.find_clusters` (app.py lines 240-263), returning
`self.clusters` (its `hex_to_cluster` side state is the second component of
the loop result and is dropped here, as the source only stores it). -/
def find_clusters (W : WorldData) : List Cluster :=
  (findClustersLoop W (scanCoords W.width W.height) ∅ 0 [] []).1

end TerrainClusterer

namespace GeographicNameGenerator

/-- One terrain entry of a geographic naming style: the `prefixes` and
`suffixes` lists (app.py lines 163-168). -/
structure GeoTerrainData where
  pre : List String
  suf : List String
  deriving Repr, DecidableEq

/-- `use_basic_name_data`'s `geographic_naming_styles` table (app.py
lines 159-170); `config/geographic-names.json` is absent from the
repository, so this fallback is always in force. -/
def geographic_naming_styles : List (String × List (String × GeoTerrainData)) :=
  [("fantasy",
    [("plains",    ⟨["Golden", "Green", "Wind"], ["Plains", "Fields", "Meadows"]⟩),
     ("hills",     ⟨["Rolling", "Stone", "Copper"], ["Hills", "Downs", "Heights"]⟩),
     ("mountains", ⟨["Iron", "Storm", "Dragon"], ["Mountains", "Peaks", "Range"]⟩),
     ("forests",   ⟨["Dark", "Ancient", "Deep"], ["Wood", "Forest", "Grove"]⟩),
     ("swamps",    ⟨["Shadow", "Mist", "Black"], ["Marshes", "Swamps", "Bogs"]⟩),
     ("deserts",   ⟨["Burning", "Red", "Endless"], ["Desert", "Sands", "Wastes"]⟩)])]

/-- `terrain_cultural_preferences` of the basic geographic name data
(app.py lines 171-174). -/
def terrain_cultural_preferences : List (String × List String) :=
  [("plains", ["fantasy"]), ("hills", ["fantasy"]), ("mountains", ["fantasy"]),
   ("forests", ["fantasy"]), ("swamps", ["fantasy"]), ("deserts", ["fantasy"])]

/-- `GeographicNameGenerator.choose_cultural_style` (app.py lines 211-215):
a random pick from the preference list when the terrain is mapped, otherwise
the literal `'fantasy'` without consuming randomness. -/
def choose_cultural_style (terrain : String) (g : RandState) : String × RandState :=
  match terrain_cultural_preferences.lookup terrain with
  | some prefs => randChoice prefs g
  | none => ("fantasy", g)

/-- `GeographicNameGenerator.create_basic_name` (app.py lines 217-226). -/
def create_basic_name (terrain : String) : String :=
  (([("plains", "Great Plains"), ("hills", "Rolling Hills"),
     ("mountains", "High Mountains"), ("forests", "Deep Forest"),
     ("swamps", "Dark Marshes"), ("deserts", "Endless Desert")] :
      List (String × String)).lookup terrain).getD "Unknown Land"

/-- The `while attempts < 50` retry loop of `generate_geographic_name`
(app.py lines 192-199), indexed by the number of attempts remaining after
the current one (so it is entered with fuel 49 for 50 total attempts): draw
a `"{prefix} {suffix}"` candidate; keep it if unused or if this was the last
attempt, otherwise retry. -/
def geoAttempts (td : GeoTerrainData) (used : List String) :
    Nat → RandState → String × RandState
  | 0, g =>
    let (p, g1) := randChoice td.pre g
    let (s, g2) := randChoice td.suf g1
    (p ++ " " ++ s, g2)
  | remaining + 1, g =>
    let (p, g1) := randChoice td.pre g
    let (s, g2) := randChoice td.suf g1
    let name := p ++ " " ++ s
    if name ∈ used then geoAttempts td used remaining g2 else (name, g2)

/-- The `while f"{base_name} {counter}" in used and counter < 100` loop of
app.py lines 202-206, returning the final counter value.  The counter starts
at 2 and the `counter < 100` guard stops it at 100, so fuel 100 always
suffices (the fuel-0 fallback is unreachable from the call site). -/
def counterLoop (used : List String) (base_name : String) :
    Nat → Nat → Nat
  | 0, counter => counter
  | fuel + 1, counter =>
    if (base_name ++ " " ++ toString counter) ∈ used ∧ counter < 100 then
      counterLoop used base_name fuel (counter + 1)
    else counter

/-- `GeographicNameGenerator.generate_geographic_name` (app.py
lines 177-209) over the basic name data, returning the name together with
the updated `used_names` set and random state.  Note the early return of
line 186-187: a terrain absent from the style table yields
`create_basic_name` directly, with no uniqueness check and no insertion
into `used_names`. -/
def generate_geographic_name (terrain : String) (used : List String)
    (g : RandState) : String × List String × RandState :=
  let (cultural_style, g1) := choose_cultural_style terrain g
  let style_data := (geographic_naming_styles.lookup cultural_style).getD []
  match style_data.lookup terrain with
  | none => (create_basic_name terrain, used, g1)
  | some terrain_data =>
    let (name0, g2) := geoAttempts terrain_data used 49 g1
    let name :=
      if name0 ∈ used then
        name0 ++ " " ++ toString (counterLoop used name0 100 2)
      else name0
    (name, pySetAdd used name, g2)

end GeographicNameGenerator

namespace SettlementNameGenerator

/-- The `fantasy` entry of `cultural_naming_styles` in
`use_basic_name_data` (app.py lines 316-329).  The basic data has no
`middle_parts` and no `unique_city_names`, which the optional fields record
as `none` (a missing dict key). -/
structure StyleData where
  pre : List String
  suf : List String
  patterns : List String
  middle_parts : Option (List String)
  deriving Repr, DecidableEq

/-- `cultural_naming_styles` of the basic settlement name data. -/
def cultural_naming_styles : List (String × StyleData) :=
  [("fantasy",
    ⟨["Gold", "Silver", "Stone", "River", "Green", "Iron"],
     ["vale", "ford", "wood", "haven", "ridge", "burg"],
     ["prefix + suffix"], none⟩)]

/-- `unique_city_names` is absent from the basic settlement name data
(app.py lines 316-329), so the `'unique_city_names' in self.name_data`
check of line 362 is always false. -/
def unique_city_names : Option (List (String × List String)) := none

/-- `terrain_cultural_preferences` of the basic settlement name data
(app.py lines 325-328). -/
def terrain_cultural_preferences : List (String × List String) :=
  [("plains", ["fantasy"]), ("hills", ["fantasy"]), ("mountains", ["fantasy"]),
   ("forests", ["fantasy"]), ("swamps", ["fantasy"]), ("deserts", ["fantasy"])]

/-- `SettlementNameGenerator.choose_cultural_style` (app.py lines 372-376). -/
def choose_cultural_style (terrain : String) (g : RandState) : String × RandState :=
  match terrain_cultural_preferences.lookup terrain with
  | some prefs => randChoice prefs g
  | none => ("fantasy", g)

/-- `SettlementNameGenerator.create_basic_name` (app.py lines 391-394). -/
def create_basic_name (g : RandState) : String × RandState :=
  let (p, g1) := randChoice ["Gold", "Silver", "Stone", "River", "Green", "Iron"] g
  let (s, g2) := randChoice ["vale", "ford", "wood", "haven", "ridge", "burg"] g1
  (p ++ s, g2)

/-- `SettlementNameGenerator.generate_compound_name` (app.py lines 378-389).
The names are concatenated without a space. -/
def generate_compound_name (style_data : StyleData) (g : RandState) :
    String × RandState :=
  let (pat, g1) := randChoice style_data.patterns g
  match style_data.middle_parts with
  | some mids =>
    if pat = "prefix + middle + suffix" then
      let (p, g2) := randChoice style_data.pre g1
      let (m, g3) := randChoice mids g2
      let (s, g4) := randChoice style_data.suf g3
      (p ++ m ++ s, g4)
    else
      let (p, g2) := randChoice style_data.pre g1
      let (s, g3) := randChoice style_data.suf g2
      (p ++ s, g3)
  | none =>
    let (p, g2) := randChoice style_data.pre g1
    let (s, g3) := randChoice style_data.suf g2
    (p ++ s, g3)

/-- `SettlementNameGenerator.create_name` (app.py lines 354-370).  With the
basic data, `unique_city_names` is absent, so the city branch never fires
and no `random.random()` draw is consumed there. -/
def create_name (terrain settlement_type : String) (g : RandState) :
    String × RandState :=
  let (cultural_style, g1) := choose_cultural_style terrain g
  match cultural_naming_styles.lookup cultural_style with
  | none => create_basic_name g1
  | some style_data =>
    if settlement_type = "city" ∧ unique_city_names.isSome then
      -- Unreachable with the basic data (no `unique_city_names` key), so the
      -- `random.random() < 0.4` city-name draw of lines 364-368 never runs.
      generate_compound_name style_data g1
    else
      generate_compound_name style_data g1

/-- The `while attempts < 50` loop of `generate_name` (app.py lines
338-342), indexed by remaining attempts as in `geoAttempts`. -/
def nameAttempts (terrain settlement_type : String) (used : List String) :
    Nat → RandState → String × RandState
  | 0, g => create_name terrain settlement_type g
  | remaining + 1, g =>
    let (name, g1) := create_name terrain settlement_type g
    if name ∈ used then nameAttempts terrain settlement_type used remaining g1
    else (name, g1)

/-- The counter loop of app.py lines 344-349 (same shape as the geographic
one). -/
def counterLoop (used : List String) (base_name : String) :
    Nat → Nat → Nat
  | 0, counter => counter
  | fuel + 1, counter =>
    if (base_name ++ " " ++ toString counter) ∈ used ∧ counter < 100 then
      counterLoop used base_name fuel (counter + 1)
    else counter

/-- `SettlementNameGenerator.generate_name` (app.py lines 331-352). -/
def generate_name (terrain settlement_type : String) (used : List String)
    (g : RandState) : String × List String × RandState :=
  let (name0, g1) := nameAttempts terrain settlement_type used 49 g
  let name :=
    if name0 ∈ used then
      name0 ++ " " ++ toString (counterLoop used name0 100 2)
    else name0
  (name, pySetAdd used name, g1)

end SettlementNameGenerator

namespace GenerateWorld

/-- `get_terrain_resources` (app.py lines 665-675). -/
def get_terrain_resources (terrain_type : String) : List String :=
  (([("plains", ["grain", "horses"]), ("hills", ["stone", "iron"]),
     ("mountains", ["stone", "iron", "gems"]), ("forests", ["wood", "herbs"]),
     ("swamps", ["herbs", "rare_materials"]), ("deserts", ["rare_minerals"])] :
      List (String × List String)).lookup terrain_type).getD []

/-- `generate_random_id` (app.py lines 621-623): `f"L{random.randint(1000, 9999)}"`. -/
def generate_random_id (g : RandState) : String × RandState :=
  let (n, g1) := randIntR 1000 9999 g
  ("L" ++ toString n, g1)

/-- One freshly generated hex dict (app.py lines 557-563);
`population_center` and `geographic_name` start as `None`. -/
structure GenHex where
  terrain : String
  resources : List String
  population_center : Option String
  location_id : String
  geographic_name : Option String
  deriving Repr, DecidableEq

/-- The terrain-generation loop body of `generate_world` (app.py lines
553-563) over an explicit coordinate list: each cell consumes one
`random.choice(terrain_types)` draw and one `random.randint` draw (for
`generate_random_id`), in scan order. -/
def buildHexes (terrain_types : List String) :
    List (Int × Int) → RandState → List ((Int × Int) × GenHex) × RandState
  | [], g => ([], g)
  | c :: rest, g =>
    let (terrain, g1) := randChoice terrain_types g
    let (lid, g2) := generate_random_id g1
    let hex : GenHex :=
      { terrain := terrain, resources := get_terrain_resources terrain,
        population_center := none, location_id := lid, geographic_name := none }
    let (tail, g3) := buildHexes terrain_types rest g2
    ((c, hex) :: tail, g3)

/-- The `world_data["hexes"]` map produced by the terrain loop of
`generate_world` (app.py lines 552-563): scan order is `y` outer, `x`
inner, exactly as in `TerrainClusterer.scanCoords`. -/
def genWorldHexes (width height : Nat) (terrain_types : List String)
    (g : RandState) : List ((Int × Int) × GenHex) × RandState :=
  buildHexes terrain_types (TerrainClusterer.scanCoords width height) g

/-- The `metadata["wrap"]["east_west"]` flag of every generated world
(app.py line 545). -/
def wrap_east_west : Bool := true

/-- The `metadata["wrap"]["north_south"]` flag (app.py line 545). -/
def wrap_north_south : Bool := false

/-- View of a generated hex map as the world data consumed by
`TerrainClusterer` (app.py lines 566-567). -/
def worldFromHexes (width height : Nat) (hexes : List ((Int × Int) × GenHex)) :
    TerrainClusterer.WorldData :=
  { width := width, height := height,
    hexdom := (hexes.map Prod.fst).toFinset,
    terrain := fun c => ((hexes.lookup c).map GenHex.terrain).getD "" }

/-- The cluster-naming loop of `generate_world` (app.py lines 569-577):
name each cluster in emission order through one shared
`GeographicNameGenerator` (its hex rewrites are reflected in the returned
per-cluster name). -/
def assignClusterNames :
    List TerrainClusterer.Cluster → List String → RandState →
    List (TerrainClusterer.Cluster × String) × List String × RandState
  | [], used, g => ([], used, g)
  | K :: Ks, used, g =>
    let (name, used1, g1) :=
      GeographicNameGenerator.generate_geographic_name K.terrain used g
    let (rest, used2, g2) := assignClusterNames Ks used1 g1
    ((K, name) :: rest, used2, g2)

end GenerateWorld

/-! Specification-side definitions and concrete example inputs. -/

/-- From the spec's words (refinement comparison for the neighbor tables):
the odd-q even-column offset table
"N=(0,-1), NE=(+1,-1), SE=(+1,0), S=(0,+1), SW=(-1,0), NW=(-1,-1)". -/
def specEvenColumnOffsets : Finset (Int × Int) :=
  {(0,-1), (1,-1), (1,0), (0,1), (-1,0), (-1,-1)}

/-- From the spec's words: the odd-q odd-column offset table
"N=(0,-1), NE=(+1,0), SE=(+1,+1), S=(0,+1), SW=(-1,+1), NW=(-1,0)". -/
def specOddColumnOffsets : Finset (Int × Int) :=
  {(0,-1), (1,0), (1,1), (0,1), (-1,1), (-1,0)}

/-- The neighbor-offset table the code actually uses on even rows
(app.py lines 78-79 and 295-296), relative to the cell. -/
def evenRowOffsets : List (Int × Int) :=
  [(-1,0), (1,0), (0,-1), (1,-1), (0,1), (1,1)]

/-- The neighbor-offset table the code actually uses on odd rows
(app.py lines 80-81 and 297-298), relative to the cell. -/
def oddRowOffsets : List (Int × Int) :=
  [(-1,0), (1,0), (-1,-1), (0,-1), (-1,1), (0,1)]

/-- The coordinate rectangle `0 ≤ x < width`, `0 ≤ y < height` as a finite
set: the key set of the `hexes` dict of every generated world. -/
def boundsFinset (width height : Nat) : Finset (Int × Int) :=
  (Finset.range width ×ˢ Finset.range height).image
    (fun p => (Int.ofNat p.1, Int.ofNat p.2))

/-- The same-terrain adjacency relation that drives the clusterer: both
cells are stored hexes, their terrains agree, and the second is one of the
first's raw hex neighbors. -/
def sameTerrainAdj (W : TerrainClusterer.WorldData) (u v : Int × Int) : Prop :=
  u ∈ W.hexdom ∧ v ∈ W.hexdom ∧ W.terrain u = W.terrain v ∧
    v ∈ TerrainClusterer.get_hex_neighbors u.1 u.2

/-- A cell the flood fill with target terrain `t` may take: stored in the
hex dict and labeled `t`. -/
def floodEligible (W : TerrainClusterer.WorldData) (t : String)
    (c : Int × Int) : Prop :=
  c ∈ W.hexdom ∧ W.terrain c = t

/-- A fixed example hash function for concrete movement queries. -/
def exHash : String → Int := fun _ => 0

/-- A concrete draw stream: 1 at position 2, else 0. -/
def exStream : Nat → Nat := fun n => if n = 2 then 1 else 0

/-- A concrete 2×2 world (plains with one hills cell) for clustering. -/
def exW : TerrainClusterer.WorldData :=
  { width := 2, height := 2,
    hexdom := {(0,0), (1,0), (0,1), (1,1)},
    terrain := fun c => if c = (1,1) then "hills" else "plains" }

/-- A concrete all-plains 2×2 world for movement-direction queries. -/
def exMWorld : MovementCalculator.MWorld :=
  { width := 2, height := 2,
    hexes := fun c =>
      if c = (0,0) ∨ c = (1,0) ∨ c = (0,1) ∨ c = (1,1) then
        some { terrain := "plains", geographic_name := some "Green Fields",
               location_id := some "L1000" }
      else none }

/-- The `"Unknown"`-labeled direction entry of the example world: the last
entry of the movement query at `(0,0)` (sorted after all compass labels). -/
def exDirEntry : MovementCalculator.DirEntry :=
  (MovementCalculator.calculate_all_directions exHash 0 0 exMWorld).getLastD
    { direction := "", target_name := "", target_id := "", target_terrain := "",
      coordinates := (0, 0),
      movement := ⟨⟨none, false, none, none, []⟩, ⟨none, false, none, none, []⟩,
        ⟨none, false, none, none, []⟩⟩ }

/-- The generated 1×3 world of the `exStream` run: terrains
`water, plains, water` down the single column. -/
def exGenWorld : TerrainClusterer.WorldData :=
  GenerateWorld.worldFromHexes 1 3
    (GenerateWorld.genWorldHexes 1 3 ["water", "plains"] (exStream, 0)).1

/-- The named clusters produced by the `exStream` generation run: terrain
generation consumes draws 0-5, so cluster naming starts at position 6 with a
freshly reset `used_names` set (app.py lines 537-538). -/
def exNamedClusters : List (TerrainClusterer.Cluster × String) :=
  (GenerateWorld.assignClusterNames (TerrainClusterer.find_clusters exGenWorld)
    [] (exStream, 6)).1

/-! ## Helper lemmas -/

/-- A successful association-list lookup produces a member of the list. -/
theorem lookup_mem {α β : Type} [BEq α] [LawfulBEq α] :
    ∀ (l : List (α × β)) (a : α) (b : β), l.lookup a = some b → (a, b) ∈ l := by
  intro l
  induction l with
  | nil => intro a b h; simp [List.lookup] at h
  | cons hd tl ih =>
    intro a b h
    rw [List.lookup_cons] at h
    by_cases he : a = hd.1
    · subst he
      simp at h
      simp [← h]
    · rw [beq_false_of_ne he] at h
      simp at h
      exact List.mem_cons_of_mem _ (ih a b h)

/-- The scan order of `find_clusters` visits `h * w` coordinates. -/
theorem scanCoords_length (w h : Nat) :
    (TerrainClusterer.scanCoords w h).length = h * w := by
  rw [TerrainClusterer.scanCoords, List.length_flatMap]
  simp [Function.comp_def]

/-- Membership in the scan order is exactly membership in the grid
rectangle. -/
theorem mem_scanCoords {w h : Nat} {c : Int × Int} :
    c ∈ TerrainClusterer.scanCoords w h ↔
      0 ≤ c.1 ∧ c.1 < (w : Int) ∧ 0 ≤ c.2 ∧ c.2 < (h : Int) := by
  unfold TerrainClusterer.scanCoords
  constructor
  · intro hm
    simp only [List.mem_flatMap, List.mem_map, List.mem_range] at hm
    obtain ⟨y, hy, x, hx, rfl⟩ := hm
    simp only [Int.ofNat_eq_natCast]
    omega
  · rintro ⟨h1, h2, h3, h4⟩
    have hx : c.1.toNat ∈ List.range w := List.mem_range.mpr (by omega)
    have hy : c.2.toNat ∈ List.range h := List.mem_range.mpr (by omega)
    refine List.mem_flatMap.mpr ⟨c.2.toNat, hy, List.mem_map.mpr ⟨c.1.toNat, hx, ?_⟩⟩
    simp only [Int.ofNat_eq_natCast]
    rw [Int.toNat_of_nonneg h1, Int.toNat_of_nonneg h3]

/-- Membership in `boundsFinset` is exactly the rectangle condition. -/
theorem mem_boundsFinset {w h : Nat} {c : Int × Int} :
    c ∈ boundsFinset w h ↔
      0 ≤ c.1 ∧ c.1 < (w : Int) ∧ 0 ≤ c.2 ∧ c.2 < (h : Int) := by
  unfold boundsFinset
  simp only [Finset.mem_image, Finset.mem_product, Finset.mem_range, Prod.exists]
  constructor
  · rintro ⟨x, y, ⟨hx, hy⟩, rfl⟩
    simp only [Int.ofNat_eq_natCast]
    omega
  · rintro ⟨h1, h2, h3, h4⟩
    have hx : c.1.toNat < w := by omega
    have hy : c.2.toNat < h := by omega
    refine ⟨c.1.toNat, c.2.toNat, ⟨hx, hy⟩, ?_⟩
    simp only [Int.ofNat_eq_natCast]
    rw [Int.toNat_of_nonneg h1, Int.toNat_of_nonneg h3]

/-- Every entry of the basic terrain table, and the default, has exit and
enter cost at least 2. -/
theorem cost_entry_bounds (t : String) :
    2 ≤ ((MovementCalculator.terrain_movement_costs.lookup t).getD
          MovementCalculator.plainsData).base_exit_time ∧
    2 ≤ ((MovementCalculator.terrain_movement_costs.lookup t).getD
          MovementCalculator.plainsData).base_enter_time := by
  cases h : MovementCalculator.terrain_movement_costs.lookup t with
  | none => simp [h, MovementCalculator.plainsData]
  | some v =>
    have hm := lookup_mem _ _ _ h
    simp only [MovementCalculator.terrain_movement_costs, List.mem_cons,
      List.not_mem_nil, or_false, Prod.mk.injEq] at hm
    rcases hm with ⟨_, hv⟩ | ⟨_, hv⟩ | ⟨_, hv⟩ | ⟨_, hv⟩ | ⟨_, hv⟩ | ⟨_, hv⟩ <;>
      subst hv <;> simp [h]

/-! ## C1: hex neighbor offsets -/

/-- C1 counterexample: the offset set returned at the even-column cell
`(0,0)` is not the odd-q even-column table claimed by the spec, and the two
cells `(0,0)` and `(0,1)` of the same (even) column get different offset
sets, so the tables are not selected by column parity. -/
theorem neighbor_offsets_not_odd_q :
    (TerrainClusterer.get_hex_neighbors 0 0).toFinset ≠ specEvenColumnOffsets ∧
    ((TerrainClusterer.get_hex_neighbors 0 1).map
        (fun n => (n.1, n.2 - 1))).toFinset ≠
      (TerrainClusterer.get_hex_neighbors 0 0).toFinset := by
  decide

/-- C1 amended: the neighbor offsets are selected by the parity of the row
`y` (not the column), with the even-row table
`W=(-1,0), E=(+1,0), N=(0,-1), NE=(+1,-1), S=(0,+1), SE=(+1,+1)` and the
odd-row table `W=(-1,0), E=(+1,0), NW=(-1,-1), N=(0,-1), SW=(-1,+1),
S=(0,+1)`; `MovementCalculator.get_hex_neighbors` filters the same tables to
the grid bounds. -/
theorem neighbor_offsets_row_parity (x y : Int) :
    TerrainClusterer.get_hex_neighbors x y =
      (if y % 2 = 0 then evenRowOffsets else oddRowOffsets).map
        (fun d => (x + d.1, y + d.2)) ∧
    ∀ width height : Nat,
      MovementCalculator.get_hex_neighbors x y width height =
        (TerrainClusterer.get_hex_neighbors x y).filter (fun n =>
          decide (0 ≤ n.1 ∧ n.1 < (width : Int) ∧ 0 ≤ n.2 ∧ n.2 < (height : Int))) := by
  constructor
  · by_cases hy : y % 2 = 0 <;>
      simp [TerrainClusterer.get_hex_neighbors, evenRowOffsets, oddRowOffsets,
        hy, Int.sub_eq_add_neg]
  · intro width height
    by_cases hy : y % 2 = 0 <;>
      simp [TerrainClusterer.get_hex_neighbors,
        MovementCalculator.get_hex_neighbors, hy]

/-! ## C2: no east-west wrap -/

/-- C2 counterexample: every generated world stores an east-west wrap flag
set to true, yet a cell in column 0 of a 4-wide world has no neighbor in
column `width - 1 = 3`, on either row parity: out-of-range columns are
simply dropped. -/
theorem no_wrap_at_column_zero :
    GenerateWorld.wrap_east_west = true ∧
    (MovementCalculator.get_hex_neighbors 0 0 4 4).filter
      (fun n => decide (n.1 = 3)) = [] ∧
    (MovementCalculator.get_hex_neighbors 0 1 4 4).filter
      (fun n => decide (n.1 = 3)) = [] := by
  decide

/-- C2 amended: the neighbor function ignores the wrap flag entirely (the
flag is written into generated metadata but never read): every neighbor it
returns lies strictly inside the rectangle `0 ≤ x < width`,
`0 ≤ y < height`, and its column differs from the query column by at most
one, so `x` is never taken modulo `width` and out-of-range offsets are a
hard boundary. -/
theorem get_hex_neighbors_no_wrap (width height : Nat) (x y : Int)
    (n : Int × Int) (h : n ∈ MovementCalculator.get_hex_neighbors x y width height) :
    GenerateWorld.wrap_east_west = true ∧
    (0 ≤ n.1 ∧ n.1 < (width : Int) ∧ 0 ≤ n.2 ∧ n.2 < (height : Int)) ∧
    (n.1 = x - 1 ∨ n.1 = x ∨ n.1 = x + 1) := by
  have h' : n ∈ (if y % 2 = 0 then
        [(x-1, y), (x+1, y), (x, y-1), (x+1, y-1), (x, y+1), (x+1, y+1)]
      else
        [(x-1, y), (x+1, y), (x-1, y-1), (x, y-1), (x-1, y+1), (x, y+1)]) ∧
      (0 ≤ n.1 ∧ n.1 < (width : Int) ∧ 0 ≤ n.2 ∧ n.2 < (height : Int)) := by
    have := List.mem_filter.mp h
    exact ⟨this.1, by simpa using this.2⟩
  refine ⟨rfl, h'.2, ?_⟩
  rcases h' with ⟨h1, -⟩
  by_cases hy : y % 2 = 0
  · rw [if_pos hy] at h1
    simp only [List.mem_cons, List.not_mem_nil, or_false] at h1
    rcases h1 with h1 | h1 | h1 | h1 | h1 | h1 <;> rw [h1] <;> simp
  · rw [if_neg hy] at h1
    simp only [List.mem_cons, List.not_mem_nil, or_false] at h1
    rcases h1 with h1 | h1 | h1 | h1 | h1 | h1 <;> rw [h1] <;> simp

/-- C2 amended, witness at `(1,0) ∈ neighbors of (0,0)` in a 4×4 grid. -/
theorem get_hex_neighbors_no_wrap_witness :
    GenerateWorld.wrap_east_west = true ∧
    ((1 : Int), (0 : Int)).1 < ((4 : Nat) : Int) :=
  ⟨(get_hex_neighbors_no_wrap 4 4 0 0 (1, 0) (by decide)).1,
   ((get_hex_neighbors_no_wrap 4 4 0 0 (1, 0) (by decide)).2.1).2.1⟩

/-! ## C3: impassable handling -/

/-- C3 counterexample: flying from plains into mountains is reported
impassable with no day count, not the fixed 4-day constant the claim
demands for flying. -/
theorem flying_blocked_by_impassable_destination :
    MovementCalculator.calculate_movement_time exHash "plains" "mountains"
      "flying" (some (0, 0)) (some (1, 0)) =
    { days := none, impassable := true, movement_type := none,
      reason := some "Impassable terrain: mountains", requirements := [] } := by
  decide

/-- C3 amended: only the destination terrain is consulted: a movement query
reports impassable (for every mode, flying included) exactly when the
destination's table entry is impassable, and whenever the destination is
passable the flying mode returns the fixed constant 4 days; the source
terrain's passability flag is ignored. -/
theorem impassable_destination_blocks_all_modes (hf : String → Int)
    (ft tt mt : String) (c1 c2 : Option (Int × Int)) :
    ((MovementCalculator.calculate_movement_time hf ft tt mt c1 c2).impassable = true ↔
      ((MovementCalculator.terrain_movement_costs.lookup tt).getD
        MovementCalculator.plainsData).passable = false) ∧
    (((MovementCalculator.terrain_movement_costs.lookup tt).getD
        MovementCalculator.plainsData).passable = true → mt = "flying" →
      (MovementCalculator.calculate_movement_time hf ft tt mt c1 c2).days = some 4) := by
  simp only [MovementCalculator.calculate_movement_time]
  by_cases hp : ((MovementCalculator.terrain_movement_costs.lookup tt).getD
      MovementCalculator.plainsData).passable = false
  · rw [if_pos hp]
    simp [hp]
  · rw [if_neg hp]
    constructor
    · split_ifs <;> simp [hp]
    · intro _ hmt
      subst hmt
      simp

/-- C3 amended, witness: with a passable destination (hills), flying
returns the 4-day constant. -/
theorem impassable_destination_blocks_all_modes_witness :
    (MovementCalculator.calculate_movement_time exHash "plains" "hills"
      "flying" none none).days = some 4 :=
  (impassable_destination_blocks_all_modes exHash "plains" "hills" "flying"
    none none).2 (by decide) rfl

/-! ## C4: movement determinism -/

/-- C4: `calculate_movement_time` is a pure function of the two terrains,
the mode and the two coordinates: it neither reads nor advances the ambient
random state, so two calls with identical inputs (in particular a repeated
call, the second starting from whatever state the first left) return
identical results. -/
theorem calculate_movement_time_deterministic (hf : String → Int)
    (ft tt mt : String) (c1 c2 : Option (Int × Int)) (g g' : RandState) :
    (MovementCalculator.calculate_movement_timeR hf ft tt mt c1 c2 g).1 =
      (MovementCalculator.calculate_movement_timeR hf ft tt mt c1 c2 g').1 ∧
    (MovementCalculator.calculate_movement_timeR hf ft tt mt c1 c2 g).2 = g ∧
    (MovementCalculator.calculate_movement_timeR hf ft tt mt c1 c2
        ((MovementCalculator.calculate_movement_timeR hf ft tt mt c1 c2 g).2)).1 =
      (MovementCalculator.calculate_movement_timeR hf ft tt mt c1 c2 g).1 :=
  ⟨rfl, rfl, rfl⟩

/-! ## C7: riding no slower than walking -/

/-- C7: for passable source and destination terrains, both walking and
riding return a day count, and the riding time — the integer floor of the
walking time scaled by 0.67, with a floor of 1 day — never exceeds the
walking time.  (The double `0.67` is modelled by the exact scaling
`t * 67 / 100`; the two floors agree on every walking time this table can
produce.) -/
theorem riding_le_walking (hf : String → Int) (ft tt : String)
    (c1 c2 : Option (Int × Int))
    (hft : ((MovementCalculator.terrain_movement_costs.lookup ft).getD
      MovementCalculator.plainsData).passable = true)
    (htt : ((MovementCalculator.terrain_movement_costs.lookup tt).getD
      MovementCalculator.plainsData).passable = true) :
    ∃ dw dr : Int,
      (MovementCalculator.calculate_movement_time hf ft tt "walking" c1 c2).days = some dw ∧
      (MovementCalculator.calculate_movement_time hf ft tt "riding" c1 c2).days = some dr ∧
      dr ≤ dw := by
  have hbf := cost_entry_bounds ft
  have hbt := cost_entry_bounds tt
  simp only [MovementCalculator.calculate_movement_time]
  have hp : ¬ ((MovementCalculator.terrain_movement_costs.lookup tt).getD
      MovementCalculator.plainsData).passable = false := by simp [htt]
  rw [if_neg hp]
  rw [if_neg hp]
  simp only [if_true, if_false, MovementCalculator.min_bonus,
    MovementCalculator.max_bonus]
  rcases c1 with - | fc <;> rcases c2 with - | tc <;>
    · refine ⟨_, _, rfl, rfl, ?_⟩
      dsimp only
      first
      | (have hsimp : ∀ u v : Int, u + v + 3 - (u + v + 0) + 1 = 4 := by
           intro u v
           ring
         rw [hsimp]
         omega)
      | omega

/-- C7 witness: plains to hills with a concrete hash function. -/
theorem riding_le_walking_witness :
    ∃ dw dr : Int,
      (MovementCalculator.calculate_movement_time exHash "plains" "hills"
        "walking" (some (0, 0)) (some (1, 0))).days = some dw ∧
      (MovementCalculator.calculate_movement_time exHash "plains" "hills"
        "riding" (some (0, 0)) (some (1, 0))).days = some dr ∧
      dr ≤ dw :=
  riding_le_walking exHash "plains" "hills" (some (0, 0)) (some (1, 0))
    (by decide) (by decide)

/-! ## C10: unknown terrain falls back to plains -/

/-- C10: a terrain label missing from the movement-cost table is replaced by
the plains entry for that endpoint: the result is identical to the same
query with `"plains"` substituted at the missing endpoint, and the (total)
calculation never fails on unknown labels. -/
theorem unknown_terrain_defaults_to_plains (hf : String → Int)
    (ft tt mt : String) (c1 c2 : Option (Int × Int)) :
    (MovementCalculator.terrain_movement_costs.lookup ft = none →
      MovementCalculator.calculate_movement_time hf ft tt mt c1 c2 =
        MovementCalculator.calculate_movement_time hf "plains" tt mt c1 c2) ∧
    (MovementCalculator.terrain_movement_costs.lookup tt = none →
      MovementCalculator.calculate_movement_time hf ft tt mt c1 c2 =
        MovementCalculator.calculate_movement_time hf ft "plains" mt c1 c2) := by
  have hpl : MovementCalculator.terrain_movement_costs.lookup "plains" =
      some MovementCalculator.plainsData := rfl
  constructor
  · intro h
    unfold MovementCalculator.calculate_movement_time
    rw [h, hpl]
    simp only [Option.getD_some, Option.getD_none]
  · intro h
    unfold MovementCalculator.calculate_movement_time
    rw [h, hpl]
    simp only [Option.getD_some, Option.getD_none]
    have hfalse : ¬ MovementCalculator.plainsData.passable = false := by decide
    rw [if_neg hfalse]
    rw [if_neg hfalse]

/-- C10 witness: the unknown label `"lava"` behaves exactly like plains. -/
theorem unknown_terrain_defaults_to_plains_witness :
    MovementCalculator.calculate_movement_time exHash "lava" "hills"
      "walking" none none =
    MovementCalculator.calculate_movement_time exHash "plains" "hills"
      "walking" none none :=
  (unknown_terrain_defaults_to_plains exHash "lava" "hills" "walking"
    none none).1 (by decide)

/-! ## C5: terrain generation and the seed -/

/-- Pointwise equal index functions give equal `mapIdx` results. -/
theorem mapIdx_congr_fun {a b : Type} {f g : Nat → a → b}
    (h : ∀ k x, f k x = g k x) : ∀ l : List a, l.mapIdx f = l.mapIdx g := by
  intro l
  induction l generalizing f g with
  | nil => rfl
  | cons x l ih =>
    simp only [List.mapIdx_cons]
    rw [h 0 x]
    exact congrArg _ (ih (fun k x => h (k + 1) x))

/-- The terrain loop consumes exactly two stream draws per cell in scan
order: the hex built for the `k`-th scanned coordinate is a function of the
draws at positions `i + 2k` and `i + 2k + 1` alone. -/
theorem buildHexes_mapIdx (p : List String) :
    ∀ (cs : List (Int × Int)) (f : Nat → Nat) (i : Nat),
      GenerateWorld.buildHexes p cs (f, i) =
        (cs.mapIdx (fun k c =>
          (c, { terrain := p.getD (f (i + 2 * k) % p.length) "",
                resources := GenerateWorld.get_terrain_resources
                  (p.getD (f (i + 2 * k) % p.length) ""),
                population_center := none,
                location_id := "L" ++ toString (1000 + f (i + 2 * k + 1) % 9000),
                geographic_name := none })),
         (f, i + 2 * cs.length)) := by
  intro cs
  induction cs with
  | nil =>
    intro f i
    simp [GenerateWorld.buildHexes]
  | cons c rest ih =>
    intro f i
    simp only [GenerateWorld.buildHexes, randChoice, GenerateWorld.generate_random_id,
      randIntR, List.mapIdx_cons, List.length_cons]
    rw [ih f (i + 2)]
    refine Prod.ext ?_ ?_
    · dsimp only
      congr 1
      refine mapIdx_congr_fun (fun k c => ?_) rest
      have e1 : i + 2 + 2 * k = i + 2 * (k + 1) := by ring
      rw [e1]
    · dsimp only
      refine Prod.ext rfl ?_
      dsimp only
      omega

/-- C5 counterexample: `generate_world` draws terrain from the ambient
`random` stream with no seed parameter at all, so two back-to-back
generations with identical width, height and palette (the second starting
from the stream state the first left behind) produce different terrain
grids. -/
theorem terrain_generation_not_seed_reproducible :
    ((GenerateWorld.genWorldHexes 1 1 ["plains", "mountains"] (exStream, 0)).1.map
      (fun p => p.2.terrain)) = ["plains"] ∧
    ((GenerateWorld.genWorldHexes 1 1 ["plains", "mountains"]
        ((GenerateWorld.genWorldHexes 1 1 ["plains", "mountains"]
          (exStream, 0)).2)).1.map (fun p => p.2.terrain)) = ["mountains"] := by
  decide

/-- C5 amended: terrain assignment is a deterministic function of the
ambient random stream and the scan position (not of any seed parameter,
since none exists): the whole generated hex map is the scan-order list where
cell `k` takes `terrain_types[stream(i + 2k) mod len]`, and the stream
advances by exactly two draws per cell.  Two runs from the same stream state
therefore coincide, while consecutive runs need not. -/
theorem genWorldHexes_stream_deterministic (w h : Nat) (p : List String)
    (f : Nat → Nat) (i : Nat) :
    GenerateWorld.genWorldHexes w h p (f, i) =
      ((TerrainClusterer.scanCoords w h).mapIdx (fun k c =>
        (c, { terrain := p.getD (f (i + 2 * k) % p.length) "",
              resources := GenerateWorld.get_terrain_resources
                (p.getD (f (i + 2 * k) % p.length) ""),
              population_center := none,
              location_id := "L" ++ toString (1000 + f (i + 2 * k + 1) % 9000),
              geographic_name := none })),
       (f, i + 2 * (h * w))) := by
  unfold GenerateWorld.genWorldHexes
  rw [buildHexes_mapIdx, scanCoords_length]

/-! ## C8: direction labels -/

/-- Case analysis of `get_direction_name` over the neighbor offset tables:
every offset except the even-row `(+1,+1)` and the odd-row `(-1,-1)` gets a
compass label; those two get the label `"Unknown"`. -/
theorem get_direction_name_cases (x y : Int) (n : Int × Int)
    (h : n ∈ (if y % 2 = 0 then
        [(x-1, y), (x+1, y), (x, y-1), (x+1, y-1), (x, y+1), (x+1, y+1)]
      else
        [(x-1, y), (x+1, y), (x-1, y-1), (x, y-1), (x-1, y+1), (x, y+1)])) :
    (MovementCalculator.get_direction_name x y n.1 n.2 ∈
        MovementCalculator.direction_order ∧
      ¬ MovementCalculator.get_direction_name x y n.1 n.2 = "Unknown") ∨
    (MovementCalculator.get_direction_name x y n.1 n.2 = "Unknown" ∧
      ((y % 2 = 0 ∧ n = (x + 1, y + 1)) ∨ (y % 2 = 1 ∧ n = (x - 1, y - 1)))) := by
  by_cases hy : y % 2 = 0
  · have hy1 : ¬ y % 2 = 1 := by omega
    rw [if_pos hy] at h
    simp only [List.mem_cons, List.not_mem_nil, or_false] at h
    rcases h with h | h | h | h | h | h <;> subst h <;> dsimp only <;>
      · simp only [MovementCalculator.get_direction_name]
        rw [if_neg hy1]
        norm_num
        first
        | exact Or.inl (by decide)
        | omega
  · have hy1 : y % 2 = 1 := by omega
    rw [if_neg hy] at h
    simp only [List.mem_cons, List.not_mem_nil, or_false] at h
    rcases h with h | h | h | h | h | h <;> subst h <;> dsimp only <;>
      · simp only [MovementCalculator.get_direction_name]
        rw [if_pos hy1]
        norm_num
        first
        | exact Or.inl (by decide)
        | omega

/-- C8 counterexample: at the all-plains 2×2 example world, the movement
query at `(0,0)` reports its three neighbors with labels Southeast, South
and `"Unknown"` — the even-row `(+1,+1)` neighbor gets a label outside the
compass set `{N, NE, SE, S, SW, NW}`, and no boundary marker appears. -/
theorem direction_label_unknown_exists :
    (MovementCalculator.calculate_all_directions exHash 0 0 exMWorld).map
      (fun e => e.direction) = ["Southeast", "South", "Unknown"] ∧
    ¬ ("Unknown" ∈ MovementCalculator.direction_order) := by
  decide

/-- C8 amended: every reported neighbor is labeled either with a compass
direction from `{North, Northeast, Southeast, South, Southwest, Northwest}`
or with the extra label `"Unknown"`, and the `"Unknown"` label occurs
exactly at the even-row `(x+1, y+1)` neighbor and the odd-row `(x-1, y-1)`
neighbor; out-of-bounds directions are silently omitted rather than given a
boundary marker. -/
theorem direction_labels_characterized (hf : String → Int)
    (W : MovementCalculator.MWorld) (x y : Int)
    (e : MovementCalculator.DirEntry)
    (he : e ∈ MovementCalculator.calculate_all_directions hf x y W) :
    (e.direction ∈ MovementCalculator.direction_order ∨
      e.direction = "Unknown") ∧
    (e.direction = "Unknown" →
      (y % 2 = 0 ∧ e.coordinates = (x + 1, y + 1)) ∨
      (y % 2 = 1 ∧ e.coordinates = (x - 1, y - 1))) := by
  unfold MovementCalculator.calculate_all_directions at he
  cases hcur : W.hexes (x, y) with
  | none =>
    rw [hcur] at he
    simp at he
  | some cur =>
    rw [hcur] at he
    rw [(List.perm_insertionSort _ _).mem_iff, List.mem_filterMap] at he
    obtain ⟨n, hn, hsome⟩ := he
    cases hnh : W.hexes n with
    | none =>
      rw [hnh] at hsome
      simp at hsome
    | some nh =>
      rw [hnh] at hsome
      simp only [Option.some.injEq] at hsome
      subst hsome
      have h1 := (List.mem_filter.mp hn).1
      have hc := get_direction_name_cases x y n h1
      dsimp only
      rcases hc with ⟨hmem, hne⟩ | ⟨hunk, hloc⟩
      · exact ⟨Or.inl hmem, fun habs => absurd habs hne⟩
      · exact ⟨Or.inr hunk, fun _ => hloc⟩

/-- C8 amended, witness at the `"Unknown"`-labeled entry of the example
world. -/
theorem direction_labels_characterized_witness :
    (exDirEntry.direction ∈ MovementCalculator.direction_order ∨
      exDirEntry.direction = "Unknown") ∧
    (exDirEntry.direction = "Unknown" →
      ((0 : Int) % 2 = 0 ∧ exDirEntry.coordinates = (0 + 1, 0 + 1)) ∨
      ((0 : Int) % 2 = 1 ∧ exDirEntry.coordinates = (0 - 1, 0 - 1))) :=
  direction_labels_characterized exHash exMWorld 0 0 exDirEntry (by decide)

/-! ## C6: clustering is a partition -/

/-- Unfolding of the flood-fill push guard. -/
theorem pushCond_spec {W : TerrainClusterer.WorldData} {t : String}
    {vis : Finset (Int × Int)} {n : Int × Int}
    (h : TerrainClusterer.pushCond W t vis n = true) :
    (0 ≤ n.1 ∧ n.1 < (W.width : Int) ∧ 0 ≤ n.2 ∧ n.2 < (W.height : Int)) ∧
    n ∉ vis ∧ n ∈ W.hexdom ∧ W.terrain n = t := by
  simpa [TerrainClusterer.pushCond] using h

/-- Converse unfolding of the flood-fill push guard. -/
theorem pushCond_intro {W : TerrainClusterer.WorldData} {t : String}
    {vis : Finset (Int × Int)} {n : Int × Int}
    (hb : 0 ≤ n.1 ∧ n.1 < (W.width : Int) ∧ 0 ≤ n.2 ∧ n.2 < (W.height : Int))
    (hv : n ∉ vis) (hd : n ∈ W.hexdom) (ht : W.terrain n = t) :
    TerrainClusterer.pushCond W t vis n = true := by
  simp [TerrainClusterer.pushCond, hb.1, hb.2.1, hb.2.2.1, hb.2.2.2, hv, hd, ht]

/-- Each raw neighbor table has six entries. -/
theorem get_hex_neighbors_length (x y : Int) :
    (TerrainClusterer.get_hex_neighbors x y).length = 6 := by
  by_cases hy : y % 2 = 0 <;> simp [TerrainClusterer.get_hex_neighbors, hy]

/-- The raw hex-neighbor relation is symmetric: a parity case bash over the
two offset tables. -/
theorem get_hex_neighbors_symm {u v : Int × Int}
    (h : v ∈ TerrainClusterer.get_hex_neighbors u.1 u.2) :
    u ∈ TerrainClusterer.get_hex_neighbors v.1 v.2 := by
  by_cases hb : u.2 % 2 = 0
  · rw [TerrainClusterer.get_hex_neighbors, if_pos hb] at h
    simp only [List.mem_cons, List.not_mem_nil, or_false] at h
    rcases h with h | h | h | h | h | h <;> subst h <;>
      · dsimp only
        simp only [TerrainClusterer.get_hex_neighbors]
        first
        | rw [if_pos (by omega)]
        | rw [if_neg (by omega)]
        simp only [List.mem_cons, List.not_mem_nil, or_false, Prod.ext_iff,
          true_and, and_true]
        omega
  · rw [TerrainClusterer.get_hex_neighbors, if_neg hb] at h
    simp only [List.mem_cons, List.not_mem_nil, or_false] at h
    rcases h with h | h | h | h | h | h <;> subst h <;>
      · dsimp only
        simp only [TerrainClusterer.get_hex_neighbors]
        first
        | rw [if_pos (by omega)]
        | rw [if_neg (by omega)]
        simp only [List.mem_cons, List.not_mem_nil, or_false, Prod.ext_iff,
          true_and, and_true]
        omega

/-- Same-terrain adjacency is symmetric. -/
theorem sameTerrainAdj_symm {W : TerrainClusterer.WorldData} {u v : Int × Int}
    (h : sameTerrainAdj W u v) : sameTerrainAdj W v u :=
  ⟨h.2.1, h.1, h.2.2.1.symm, get_hex_neighbors_symm h.2.2.2⟩

/-- Fuel-independent invariants of the flood-fill loop: the visited set only
grows, the returned cluster extends the accumulator by exactly the newly
visited cells, stays duplicate-free, and contains only same-terrain stored
cells. -/
theorem floodAux_invariants (W : TerrainClusterer.WorldData) (t : String) :
    ∀ (fuel : Nat) (stack : List (Int × Int)) (visited : Finset (Int × Int))
      (cluster : List (Int × Int)),
      (∀ c ∈ stack, floodEligible W t c) →
      cluster.Nodup →
      (∀ c ∈ cluster, c ∈ visited) →
      (∀ c ∈ cluster, floodEligible W t c) →
      visited ⊆ (TerrainClusterer.floodAux W t fuel stack visited cluster).2 ∧
      (∀ d, d ∈ (TerrainClusterer.floodAux W t fuel stack visited cluster).1 ↔
        (d ∈ cluster ∨
          (d ∈ (TerrainClusterer.floodAux W t fuel stack visited cluster).2 ∧
            d ∉ visited))) ∧
      (TerrainClusterer.floodAux W t fuel stack visited cluster).1.Nodup ∧
      (∀ d ∈ (TerrainClusterer.floodAux W t fuel stack visited cluster).1,
        floodEligible W t d) := by
  intro fuel
  induction fuel with
  | zero =>
    intro stack visited cluster hstk hnd hclv hcle
    cases stack <;>
      · simp only [TerrainClusterer.floodAux]
        refine ⟨Finset.Subset.refl _, fun d => ?_, hnd, hcle⟩
        constructor
        · exact fun hd => Or.inl hd
        · rintro (hd | ⟨h1, h2⟩)
          · exact hd
          · exact absurd h1 h2
  | succ n ih =>
    intro stack visited cluster hstk hnd hclv hcle
    cases stack with
    | nil =>
      simp only [TerrainClusterer.floodAux]
      refine ⟨Finset.Subset.refl _, fun d => ?_, hnd, hcle⟩
      constructor
      · exact fun hd => Or.inl hd
      · rintro (hd | ⟨h1, h2⟩)
        · exact hd
        · exact absurd h1 h2
    | cons c rest =>
      simp only [TerrainClusterer.floodAux]
      by_cases hskip : c ∈ visited ∨ c ∉ W.hexdom ∨ ¬ W.terrain c = t
      · rw [if_pos hskip]
        exact ih rest visited cluster
          (fun x hx => hstk x (List.mem_cons_of_mem _ hx)) hnd hclv hcle
      · rw [if_neg hskip]
        push_neg at hskip
        obtain ⟨hcv, hcd, hct⟩ := hskip
        have hcnotin : c ∉ cluster := fun hx => hcv (hclv c hx)
        have H := ih
          (((TerrainClusterer.get_hex_neighbors c.1 c.2).filter
            (TerrainClusterer.pushCond W t (insert c visited))).reverse ++ rest)
          (insert c visited) (cluster ++ [c])
          (by
            intro x hx
            rcases List.mem_append.mp hx with hx | hx
            · have hx' := List.mem_filter.mp (List.mem_reverse.mp hx)
              have := pushCond_spec hx'.2
              exact ⟨this.2.2.1, this.2.2.2⟩
            · exact hstk x (List.mem_cons_of_mem _ hx))
          (by
            refine List.nodup_append.mpr ⟨hnd, List.nodup_singleton c, ?_⟩
            intro a ha hb
            rw [List.mem_singleton] at hb
            rw [hb] at ha
            exact hcnotin ha)
          (by
            intro x hx
            rcases List.mem_append.mp hx with hx | hx
            · exact Finset.mem_insert_of_mem (hclv x hx)
            · rw [List.mem_singleton] at hx
              rw [hx]
              exact Finset.mem_insert_self c visited)
          (by
            intro x hx
            rcases List.mem_append.mp hx with hx | hx
            · exact hcle x hx
            · rw [List.mem_singleton] at hx
              rw [hx]
              exact ⟨hcd, hct⟩)
        obtain ⟨H1, H2, H3, H4⟩ := H
        have hc2 : c ∈ (TerrainClusterer.floodAux W t n
            (((TerrainClusterer.get_hex_neighbors c.1 c.2).filter
              (TerrainClusterer.pushCond W t (insert c visited))).reverse ++ rest)
            (insert c visited) (cluster ++ [c])).2 :=
          H1 (Finset.mem_insert_self c visited)
        refine ⟨Finset.Subset.trans (Finset.subset_insert c visited) H1,
          fun d => ?_, H3, H4⟩
        constructor
        · intro hd
          rcases (H2 d).mp hd with hd | ⟨hd2, hdni⟩
          · rcases List.mem_append.mp hd with hd | hd
            · exact Or.inl hd
            · rw [List.mem_singleton] at hd
              rw [hd]
              exact Or.inr ⟨hc2, hcv⟩
          · exact Or.inr ⟨hd2, fun hv => hdni (Finset.mem_insert_of_mem hv)⟩
        · intro hd
          apply (H2 d).mpr
          rcases hd with hd | ⟨hd2, hdnv⟩
          · exact Or.inl (List.mem_append_left _ hd)
          · by_cases hdc : d = c
            · rw [hdc]
              exact Or.inl (List.mem_append_right _ (List.mem_singleton_self c))
            · refine Or.inr ⟨hd2, fun hv => ?_⟩
              rcases Finset.mem_insert.mp hv with hv | hv
              · exact hdc hv
              · exact hdnv hv

/-- The flood-fill visited set only grows, with no preconditions. -/
theorem floodAux_visited_mono (W : TerrainClusterer.WorldData) (t : String) :
    ∀ (fuel : Nat) (stack : List (Int × Int)) (visited : Finset (Int × Int))
      (cluster : List (Int × Int)),
      visited ⊆ (TerrainClusterer.floodAux W t fuel stack visited cluster).2 := by
  intro fuel
  induction fuel with
  | zero =>
    intro stack visited cluster
    cases stack <;> simp [TerrainClusterer.floodAux]
  | succ n ih =>
    intro stack visited cluster
    cases stack with
    | nil => simp [TerrainClusterer.floodAux]
    | cons c rest =>
      simp only [TerrainClusterer.floodAux]
      by_cases hskip : c ∈ visited ∨ c ∉ W.hexdom ∨ ¬ W.terrain c = t
      · rw [if_pos hskip]
        exact ih rest visited cluster
      · rw [if_neg hskip]
        exact Finset.Subset.trans (Finset.subset_insert c visited)
          (ih _ (insert c visited) (cluster ++ [c]))

/-- With enough fuel the flood-fill loop drains its stack and closes its
cluster: every stack cell ends up visited, and every same-terrain neighbor
of a returned cluster cell ends up in the returned visited set. -/
theorem floodAux_closure (W : TerrainClusterer.WorldData) (t : String)
    (HB : W.hexdom = boundsFinset W.width W.height) :
    ∀ (fuel : Nat) (stack : List (Int × Int)) (visited : Finset (Int × Int))
      (cluster : List (Int × Int)),
      7 * (W.hexdom \ visited).card + stack.length ≤ fuel →
      (∀ c ∈ stack, floodEligible W t c) →
      (∀ d ∈ cluster, ∀ v, sameTerrainAdj W d v → v ∈ visited ∨ v ∈ stack) →
      (∀ c ∈ stack, c ∈ (TerrainClusterer.floodAux W t fuel stack visited cluster).2) ∧
      (∀ d ∈ (TerrainClusterer.floodAux W t fuel stack visited cluster).1, ∀ v,
        sameTerrainAdj W d v →
          v ∈ (TerrainClusterer.floodAux W t fuel stack visited cluster).2) := by
  intro fuel
  induction fuel with
  | zero =>
    intro stack visited cluster hfuel hstk hcl
    cases stack with
    | nil =>
      simp only [TerrainClusterer.floodAux]
      refine ⟨by simp, fun d hd v hadj => ?_⟩
      rcases hcl d hd v hadj with hv | hv
      · exact hv
      · exact absurd hv (List.not_mem_nil v)
    | cons c rest =>
      rw [List.length_cons] at hfuel
      omega
  | succ n ih =>
    intro stack visited cluster hfuel hstk hcl
    cases stack with
    | nil =>
      simp only [TerrainClusterer.floodAux]
      refine ⟨by simp, fun d hd v hadj => ?_⟩
      rcases hcl d hd v hadj with hv | hv
      · exact hv
      · exact absurd hv (List.not_mem_nil v)
    | cons c rest =>
      rw [List.length_cons] at hfuel
      simp only [TerrainClusterer.floodAux]
      by_cases hskip : c ∈ visited ∨ c ∉ W.hexdom ∨ ¬ W.terrain c = t
      · have hcel := hstk c (List.mem_cons_self c rest)
        have hcvis : c ∈ visited := by
          rcases hskip with h | h | h
          · exact h
          · exact absurd hcel.1 h
          · exact absurd hcel.2 h
        rw [if_pos hskip]
        have H := ih rest visited cluster (by omega)
          (fun x hx => hstk x (List.mem_cons_of_mem _ hx))
          (by
            intro d hd v hadj
            rcases hcl d hd v hadj with hv | hv
            · exact Or.inl hv
            · rcases List.mem_cons.mp hv with hv | hv
              · rw [hv]
                exact Or.inl hcvis
              · exact Or.inr hv)
        refine ⟨?_, H.2⟩
        intro x hx
        rcases List.mem_cons.mp hx with hx | hx
        · rw [hx]
          exact floodAux_visited_mono W t n rest visited cluster hcvis
        · exact H.1 x hx
      · rw [if_neg hskip]
        push_neg at hskip
        obtain ⟨hcv, hcd, hct⟩ := hskip
        have hcmem : c ∈ W.hexdom \ visited := Finset.mem_sdiff.mpr ⟨hcd, hcv⟩
        have hcard : (W.hexdom \ insert c visited).card =
            (W.hexdom \ visited).card - 1 := by
          have hset : W.hexdom \ insert c visited = (W.hexdom \ visited).erase c := by
            ext z
            simp only [Finset.mem_sdiff, Finset.mem_erase, Finset.mem_insert]
            tauto
          rw [hset, Finset.card_erase_of_mem hcmem]
        have hpos : 0 < (W.hexdom \ visited).card :=
          Finset.card_pos.mpr ⟨c, hcmem⟩
        have hplen : ((TerrainClusterer.get_hex_neighbors c.1 c.2).filter
            (TerrainClusterer.pushCond W t (insert c visited))).length ≤ 6 := by
          calc ((TerrainClusterer.get_hex_neighbors c.1 c.2).filter
              (TerrainClusterer.pushCond W t (insert c visited))).length
              ≤ (TerrainClusterer.get_hex_neighbors c.1 c.2).length :=
                List.length_filter_le _ _
            _ = 6 := get_hex_neighbors_length c.1 c.2
        have H := ih
          (((TerrainClusterer.get_hex_neighbors c.1 c.2).filter
            (TerrainClusterer.pushCond W t (insert c visited))).reverse ++ rest)
          (insert c visited) (cluster ++ [c])
          (by
            rw [List.length_append, List.length_reverse]
            omega)
          (by
            intro x hx
            rcases List.mem_append.mp hx with hx | hx
            · have hx' := List.mem_filter.mp (List.mem_reverse.mp hx)
              have := pushCond_spec hx'.2
              exact ⟨this.2.2.1, this.2.2.2⟩
            · exact hstk x (List.mem_cons_of_mem _ hx))
          (by
            intro d hd v hadj
            rcases List.mem_append.mp hd with hd | hd
            · rcases hcl d hd v hadj with hv | hv
              · exact Or.inl (Finset.mem_insert_of_mem hv)
              · rcases List.mem_cons.mp hv with hv | hv
                · rw [hv]
                  exact Or.inl (Finset.mem_insert_self c visited)
                · exact Or.inr (List.mem_append_right _ hv)
            · rw [List.mem_singleton] at hd
              rw [hd] at hadj
              obtain ⟨-, hvdom, hterr, hnb⟩ := hadj
              by_cases hvv : v ∈ insert c visited
              · exact Or.inl hvv
              · refine Or.inr (List.mem_append_left _ ?_)
                rw [List.mem_reverse]
                refine List.mem_filter.mpr ⟨hnb, pushCond_intro ?_ hvv hvdom ?_⟩
                · have := mem_boundsFinset.mp (HB ▸ hvdom)
                  exact this
                · rw [← hterr, hct])
        refine ⟨?_, H.2⟩
        intro x hx
        rcases List.mem_cons.mp hx with hx | hx
        · rw [hx]
          exact floodAux_visited_mono W t n _ (insert c visited)
            (cluster ++ [c]) (Finset.mem_insert_self c visited)
        · exact H.1 x (List.mem_append_right _ hx)

/-- Invariant of the `find_clusters` scan loop: emitted cluster members are
duplicate-free across clusters, coincide with the visited set, are closed
under same-terrain adjacency cluster by cluster, and lie in the hex dict;
every scanned stored cell ends up visited, and visited cells stay visited. -/
theorem findClustersLoop_spec (W : TerrainClusterer.WorldData)
    (HB : W.hexdom = boundsFinset W.width W.height) :
    ∀ (scan : List (Int × Int)) (visited : Finset (Int × Int)) (cid : Nat)
      (acc : List TerrainClusterer.Cluster) (h2c : List ((Int × Int) × Nat)),
      (∀ c ∈ visited, ∀ v, sameTerrainAdj W c v → v ∈ visited) →
      (acc.flatMap TerrainClusterer.Cluster.members).Nodup →
      (∀ d, d ∈ visited ↔ d ∈ acc.flatMap TerrainClusterer.Cluster.members) →
      (∀ K ∈ acc, ∀ u ∈ K.members, ∀ v, sameTerrainAdj W u v → v ∈ K.members) →
      visited ⊆ W.hexdom →
      (((TerrainClusterer.findClustersLoop W scan visited cid acc h2c).1.flatMap
          TerrainClusterer.Cluster.members).Nodup) ∧
      (∀ d, d ∈ (TerrainClusterer.findClustersLoop W scan visited cid acc h2c).2.2 ↔
        d ∈ (TerrainClusterer.findClustersLoop W scan visited cid acc h2c).1.flatMap
          TerrainClusterer.Cluster.members) ∧
      (∀ K ∈ (TerrainClusterer.findClustersLoop W scan visited cid acc h2c).1,
        ∀ u ∈ K.members, ∀ v, sameTerrainAdj W u v → v ∈ K.members) ∧
      ((TerrainClusterer.findClustersLoop W scan visited cid acc h2c).2.2 ⊆ W.hexdom) ∧
      (∀ c ∈ scan, c ∈ W.hexdom →
        c ∈ (TerrainClusterer.findClustersLoop W scan visited cid acc h2c).2.2) ∧
      (visited ⊆ (TerrainClusterer.findClustersLoop W scan visited cid acc h2c).2.2) := by
  intro scan
  induction scan with
  | nil =>
    intro visited cid acc h2c hGI hN hV hC hD
    simp only [TerrainClusterer.findClustersLoop]
    exact ⟨hN, hV, hC, hD, by simp, Finset.Subset.refl _⟩
  | cons c rest ih =>
    intro visited cid acc h2c hGI hN hV hC hD
    simp only [TerrainClusterer.findClustersLoop, TerrainClusterer.flood_fill]
    by_cases hc : c ∉ visited ∧ c ∈ W.hexdom
    · rw [if_pos hc]
      have hstk : ∀ x ∈ [(c.1, c.2)], floodEligible W (W.terrain c) x := by
        intro x hx
        rw [List.mem_singleton] at hx
        rw [hx]
        exact ⟨hc.2, rfl⟩
      obtain ⟨hA1, hA2, hA3, hA4⟩ := floodAux_invariants W (W.terrain c)
        (7 * W.hexdom.card + 2) [(c.1, c.2)] visited [] hstk List.nodup_nil
        (by simp) (by simp)
      obtain ⟨hB1, hB2⟩ := floodAux_closure W (W.terrain c) HB
        (7 * W.hexdom.card + 2) [(c.1, c.2)] visited []
        (by
          have hle : (W.hexdom \ visited).card ≤ W.hexdom.card :=
            Finset.card_le_card Finset.sdiff_subset
          rw [List.length_singleton]
          omega)
        hstk (by simp)
      have hcres : c ∈ (TerrainClusterer.floodAux W (W.terrain c)
          (7 * W.hexdom.card + 2) [(c.1, c.2)] visited []).2 :=
        hB1 (c.1, c.2) (List.mem_singleton_self _)
      have hcclu : c ∈ (TerrainClusterer.floodAux W (W.terrain c)
          (7 * W.hexdom.card + 2) [(c.1, c.2)] visited []).1 :=
        (hA2 c).mpr (Or.inr ⟨hcres, hc.1⟩)
      have hnotvis : ∀ d ∈ (TerrainClusterer.floodAux W (W.terrain c)
          (7 * W.hexdom.card + 2) [(c.1, c.2)] visited []).1, d ∉ visited := by
        intro d hd
        rcases (hA2 d).mp hd with hd | hd
        · exact absurd hd (List.not_mem_nil d)
        · exact hd.2
      have hcluvis : ∀ d ∈ (TerrainClusterer.floodAux W (W.terrain c)
          (7 * W.hexdom.card + 2) [(c.1, c.2)] visited []).1,
          d ∈ (TerrainClusterer.floodAux W (W.terrain c)
            (7 * W.hexdom.card + 2) [(c.1, c.2)] visited []).2 := by
        intro d hd
        rcases (hA2 d).mp hd with hd | hd
        · exact absurd hd (List.not_mem_nil d)
        · exact hd.1
      have hsplit : ∀ d ∈ (TerrainClusterer.floodAux W (W.terrain c)
          (7 * W.hexdom.card + 2) [(c.1, c.2)] visited []).2,
          d ∈ visited ∨ d ∈ (TerrainClusterer.floodAux W (W.terrain c)
            (7 * W.hexdom.card + 2) [(c.1, c.2)] visited []).1 := by
        intro d hd
        by_cases hdv : d ∈ visited
        · exact Or.inl hdv
        · exact Or.inr ((hA2 d).mpr (Or.inr ⟨hd, hdv⟩))
      by_cases hemp : (TerrainClusterer.floodAux W (W.terrain c)
          (7 * W.hexdom.card + 2) [(c.1, c.2)] visited []).1.isEmpty = true
      · exfalso
        rw [List.isEmpty_iff] at hemp
        rw [hemp] at hcclu
        exact List.not_mem_nil c hcclu
      · rw [if_neg hemp]
        have hGI2 : ∀ x ∈ (TerrainClusterer.floodAux W (W.terrain c)
            (7 * W.hexdom.card + 2) [(c.1, c.2)] visited []).2, ∀ v,
            sameTerrainAdj W x v →
            v ∈ (TerrainClusterer.floodAux W (W.terrain c)
              (7 * W.hexdom.card + 2) [(c.1, c.2)] visited []).2 := by
          intro x hx v hadj
          by_cases hxv : x ∈ visited
          · exact hA1 (hGI x hxv v hadj)
          · exact hB2 x ((hA2 x).mpr (Or.inr ⟨hx, hxv⟩)) v hadj
        have hclosed : ∀ u ∈ (TerrainClusterer.floodAux W (W.terrain c)
            (7 * W.hexdom.card + 2) [(c.1, c.2)] visited []).1, ∀ v,
            sameTerrainAdj W u v →
            v ∈ (TerrainClusterer.floodAux W (W.terrain c)
              (7 * W.hexdom.card + 2) [(c.1, c.2)] visited []).1 := by
          intro u hu v hadj
          rcases hsplit v (hB2 u hu v hadj) with hv | hv
          · exact absurd (hGI v hv u (sameTerrainAdj_symm hadj)) (hnotvis u hu)
          · exact hv
        obtain ⟨H1, H2, H3, H4, H5, H6⟩ := ih
          (TerrainClusterer.floodAux W (W.terrain c)
            (7 * W.hexdom.card + 2) [(c.1, c.2)] visited []).2 (cid + 1)
          (acc ++ [(⟨cid, W.terrain c,
            (TerrainClusterer.floodAux W (W.terrain c)
              (7 * W.hexdom.card + 2) [(c.1, c.2)] visited []).1⟩ :
            TerrainClusterer.Cluster)])
          (h2c ++ (TerrainClusterer.floodAux W (W.terrain c)
            (7 * W.hexdom.card + 2) [(c.1, c.2)] visited []).1.map
              (fun h => (h, cid)))
          hGI2
          (by
            rw [List.flatMap_append]
            simp only [List.flatMap_cons, List.flatMap_nil, List.append_nil]
            refine List.nodup_append.mpr ⟨hN, hA3, ?_⟩
            intro a ha hb
            exact hnotvis a hb ((hV a).mpr ha))
          (by
            intro d
            rw [List.flatMap_append]
            simp only [List.flatMap_cons, List.flatMap_nil, List.append_nil,
              List.mem_append]
            constructor
            · intro hd
              rcases hsplit d hd with hd | hd
              · exact Or.inl ((hV d).mp hd)
              · exact Or.inr hd
            · rintro (hd | hd)
              · exact hA1 ((hV d).mpr hd)
              · exact hcluvis d hd)
          (by
            intro K hK
            rcases List.mem_append.mp hK with hK | hK
            · exact hC K hK
            · rw [List.mem_singleton] at hK
              rw [hK]
              exact hclosed)
          (by
            intro x hx
            rcases hsplit x hx with hx | hx
            · exact hD hx
            · exact (hA4 x hx).1)
        refine ⟨H1, H2, H3, H4, ?_, ?_⟩
        · intro x hx hxd
          rcases List.mem_cons.mp hx with hx | hx
          · rw [hx]
            exact H6 hcres
          · exact H5 x hx hxd
        · exact Finset.Subset.trans hA1 H6
    · rw [if_neg hc]
      obtain ⟨H1, H2, H3, H4, H5, H6⟩ := ih visited cid acc h2c hGI hN hV hC hD
      refine ⟨H1, H2, H3, H4, ?_, H6⟩
      intro x hx hxd
      rcases List.mem_cons.mp hx with hx | hx
      · have hcv : c ∈ visited := by
          by_contra hcc
          rw [hx] at hxd
          exact hc ⟨hcc, hxd⟩
        rw [hx]
        exact H6 hcv
      · exact H5 x hx hxd

/-- C6: on any world whose hex dict covers exactly the grid rectangle (as
every generated world does), the clusters returned by `find_clusters`
partition the cells — every cell appears in exactly one cluster's member
list, exactly once, and nothing else appears — and any two hex-adjacent
stored cells with equal terrain lie together in one cluster. -/
theorem find_clusters_partition (W : TerrainClusterer.WorldData)
    (HB : W.hexdom = boundsFinset W.width W.height) :
    (∀ c, c ∈ (TerrainClusterer.find_clusters W).flatMap
        TerrainClusterer.Cluster.members ↔ c ∈ W.hexdom) ∧
    ((TerrainClusterer.find_clusters W).flatMap
        TerrainClusterer.Cluster.members).Nodup ∧
    (∀ c ∈ W.hexdom, @List.count (Int × Int) instBEqOfDecidableEq c
        ((TerrainClusterer.find_clusters W).flatMap
          TerrainClusterer.Cluster.members) = 1) ∧
    (∀ u v : Int × Int, u ∈ W.hexdom → v ∈ W.hexdom →
      W.terrain u = W.terrain v →
      v ∈ TerrainClusterer.get_hex_neighbors u.1 u.2 →
      ∃ K ∈ TerrainClusterer.find_clusters W,
        u ∈ K.members ∧ v ∈ K.members) := by
  obtain ⟨H1, H2, H3, H4, H5, H6⟩ := findClustersLoop_spec W HB
    (TerrainClusterer.scanCoords W.width W.height) ∅ 0 [] []
    (by simp) (by simp) (by simp) (by simp) (Finset.empty_subset _)
  simp only [TerrainClusterer.find_clusters]
  have hmem : ∀ c, c ∈ (TerrainClusterer.findClustersLoop W
      (TerrainClusterer.scanCoords W.width W.height) ∅ 0 [] []).1.flatMap
      TerrainClusterer.Cluster.members ↔ c ∈ W.hexdom := by
    intro c
    constructor
    · intro hcf
      exact H4 ((H2 c).mpr hcf)
    · intro hcd
      have hsc : c ∈ TerrainClusterer.scanCoords W.width W.height := by
        rw [mem_scanCoords]
        exact mem_boundsFinset.mp (HB ▸ hcd)
      exact (H2 c).mp (H5 c hsc hcd)
  refine ⟨hmem, H1, ?_, ?_⟩
  · intro c hcd
    exact List.count_eq_one_of_mem H1 ((hmem c).mpr hcd)
  · intro u v hu hv ht hnb
    obtain ⟨K, hK, huK⟩ := List.mem_flatMap.mp ((hmem u).mpr hu)
    exact ⟨K, hK, huK, H3 K hK u huK v ⟨hu, hv, ht, hnb⟩⟩

/-- C6 witness: on the concrete 2×2 example world, the cell `(0,0)` appears
in exactly one cluster. -/
theorem find_clusters_partition_witness :
    @List.count (Int × Int) instBEqOfDecidableEq (0, 0)
      ((TerrainClusterer.find_clusters exW).flatMap
        TerrainClusterer.Cluster.members) = 1 :=
  (find_clusters_partition exW (by decide)).2.2.1 (0, 0) (by decide)

/-! ## C9: name uniqueness -/

/-- The geographic disambiguator loop either lands on an unused
`"base counter"` name or stops at the cap value 100. -/
theorem geo_counterLoop_spec (used : List String) (base : String) :
    ∀ (fuel counter : Nat), counter ≤ 100 → 100 ≤ counter + fuel →
      (base ++ " " ++ toString
          (GeographicNameGenerator.counterLoop used base fuel counter)) ∉ used ∨
      GeographicNameGenerator.counterLoop used base fuel counter = 100 := by
  intro fuel
  induction fuel with
  | zero =>
    intro counter h1 h2
    right
    simp only [GeographicNameGenerator.counterLoop]
    omega
  | succ n ih =>
    intro counter h1 h2
    simp only [GeographicNameGenerator.counterLoop]
    by_cases hc : (base ++ " " ++ toString counter) ∈ used ∧ counter < 100
    · rw [if_pos hc]
      exact ih (counter + 1) (by omega) (by omega)
    · rw [if_neg hc]
      by_cases hm : (base ++ " " ++ toString counter) ∈ used
      · right
        have hlt : ¬ counter < 100 := fun hlt => hc ⟨hm, hlt⟩
        omega
      · exact Or.inl hm

/-- The settlement disambiguator loop satisfies the same specification. -/
theorem settlement_counterLoop_spec (used : List String) (base : String) :
    ∀ (fuel counter : Nat), counter ≤ 100 → 100 ≤ counter + fuel →
      (base ++ " " ++ toString
          (SettlementNameGenerator.counterLoop used base fuel counter)) ∉ used ∨
      SettlementNameGenerator.counterLoop used base fuel counter = 100 := by
  intro fuel
  induction fuel with
  | zero =>
    intro counter h1 h2
    right
    simp only [SettlementNameGenerator.counterLoop]
    omega
  | succ n ih =>
    intro counter h1 h2
    simp only [SettlementNameGenerator.counterLoop]
    by_cases hc : (base ++ " " ++ toString counter) ∈ used ∧ counter < 100
    · rw [if_pos hc]
      exact ih (counter + 1) (by omega) (by omega)
    · rw [if_neg hc]
      by_cases hm : (base ++ " " ++ toString counter) ∈ used
      · right
        have hlt : ¬ counter < 100 := fun hlt => hc ⟨hm, hlt⟩
        omega
      · exact Or.inl hm

/-- C9 counterexample: the concrete 1×3 generation run produces three
clusters (ids 0, 1, 2) whose geographic names are
`["Unknown Land", "Golden Plains", "Unknown Land"]`: the two water clusters
of one run receive the identical name, because a terrain absent from the
naming-style table short-circuits to `create_basic_name` with no uniqueness
check and no insertion into the used-names set. -/
theorem duplicate_cluster_names_in_one_run :
    exNamedClusters.map (fun p => p.2) =
      ["Unknown Land", "Golden Plains", "Unknown Land"] ∧
    exNamedClusters.map (fun p => p.1.id) = [0, 1, 2] ∧
    ¬ (exNamedClusters.map (fun p => p.2)).Nodup := by
  refine ⟨by decide, by decide, ?_⟩
  decide

/-- C9 amended: each name the settlement generator returns is fresh (not in
the used set) unless it is a capped disambiguator name `"base 100"`; the
geographic generator has the same guarantee whenever the terrain has an
entry in the naming-style table (terrains without an entry fall back to a
fixed name with no uniqueness tracking — see the counterexample).  Within
one run this gives pairwise-distinct names exactly up to those two escape
hatches. -/
theorem generated_names_fresh_unless_cap :
    (∀ (terrain settlement_type : String) (used : List String) (g : RandState),
      (SettlementNameGenerator.generate_name terrain settlement_type used g).1 ∉ used ∨
      ∃ base, (SettlementNameGenerator.generate_name terrain settlement_type used g).1 =
        base ++ " " ++ toString 100) ∧
    (∀ (terrain : String) (used : List String) (g : RandState),
      (((GeographicNameGenerator.geographic_naming_styles.lookup
          (GeographicNameGenerator.choose_cultural_style terrain g).1).getD []).lookup
        terrain).isSome = true →
      (GeographicNameGenerator.generate_geographic_name terrain used g).1 ∉ used ∨
      ∃ base, (GeographicNameGenerator.generate_geographic_name terrain used g).1 =
        base ++ " " ++ toString 100) := by
  constructor
  · intro terrain settlement_type used g
    unfold SettlementNameGenerator.generate_name
    rcases hna : SettlementNameGenerator.nameAttempts terrain settlement_type used 49 g
      with ⟨name0, g1⟩
    simp only [hna]
    by_cases hmem : name0 ∈ used
    · rw [if_pos hmem]
      rcases settlement_counterLoop_spec used name0 100 2 (by omega) (by omega)
        with hfree | hcap
      · exact Or.inl hfree
      · right
        exact ⟨name0, by rw [hcap]⟩
    · rw [if_neg hmem]
      exact Or.inl hmem
  · intro terrain used g hsome
    unfold GeographicNameGenerator.generate_geographic_name
    rcases hcs : GeographicNameGenerator.choose_cultural_style terrain g
      with ⟨style, g1⟩
    rw [hcs] at hsome
    dsimp only at hsome ⊢
    cases hlk : List.lookup terrain
        ((List.lookup style GeographicNameGenerator.geographic_naming_styles).getD [])
      with
    | none =>
      rw [hlk] at hsome
      simp at hsome
    | some td =>
      dsimp only
      by_cases hmem : (GeographicNameGenerator.geoAttempts td used 49 g1).1 ∈ used
      · rw [if_pos hmem]
        rcases geo_counterLoop_spec used
            (GeographicNameGenerator.geoAttempts td used 49 g1).1 100 2
            (by omega) (by omega)
          with hfree | hcap
        · exact Or.inl hfree
        · right
          exact ⟨(GeographicNameGenerator.geoAttempts td used 49 g1).1,
            by rw [hcap]⟩
      · rw [if_neg hmem]
        exact Or.inl hmem

/-- C9 amended, witness on concrete inputs for both generators. -/
theorem generated_names_fresh_unless_cap_witness :
    ((SettlementNameGenerator.generate_name "plains" "village" ["taken"]
        (exStream, 0)).1 ∉ ["taken"] ∨
      ∃ base, (SettlementNameGenerator.generate_name "plains" "village" ["taken"]
        (exStream, 0)).1 = base ++ " " ++ toString 100) ∧
    ((GeographicNameGenerator.generate_geographic_name "plains" ["taken"]
        (exStream, 0)).1 ∉ ["taken"] ∨
      ∃ base, (GeographicNameGenerator.generate_geographic_name "plains" ["taken"]
        (exStream, 0)).1 = base ++ " " ++ toString 100) :=
  ⟨generated_names_fresh_unless_cap.1 "plains" "village" ["taken"] (exStream, 0),
   generated_names_fresh_unless_cap.2 "plains" ["taken"] (exStream, 0) (by decide)⟩
